import Mathlib

/-!
Shallow embedding of the Oregon Trail multiplayer server (`src/server.py`)
and the client-side reconciliation routine (`src/client.py`).

Conventions of the embedding:
* Python integers are `Int`.
* Client-side positions (floats in the source) are modelled as rationals
  `ℚ`; the reconciliation arithmetic is exact, so nothing depends on
  floating-point rounding.
* `time.time()` timestamps, used by the source only as opaque event
  identities compared with `==`, are modelled as `Int` ticks supplied
  explicitly to each constructor that reads the clock.
* Every call to `random.*` is replaced by an explicit draw parameter
  (`Draws`, `GenDraw`) so the state update is a deterministic function of
  the state, the action and the draws.
-/

namespace OregonTrail

/-- `EventType` enumeration of `server.py`. -/
inductive EventType where
  | ILLNESS
  | WEATHER
  | BANDITS
  | TRADING_POST
  | HUNTING
deriving DecidableEq, Repr

/-- `Event` of `server.py`: type, description, choice descriptions, and a
mapping from choice key to an effect bundle (a key/delta association list,
kept in the insertion order of the Python dict).  `timestamp` is the
`time.time()` value taken at construction, modelled as an `Int` tick. -/
structure Event where
  type : EventType
  description : String
  choices : List (String × String)
  effects : List (String × List (String × Int))
  timestamp : Int
deriving DecidableEq, Repr

/-- `Player` of `server.py` with its seven scalar fields and the two
mutable lists. -/
structure Player where
  name : String
  position : Int
  food : Int
  ammo : Int
  money : Int
  health : Int
  wagon_condition : Int
  active_effects : List String
  events : List Event
deriving DecidableEq, Repr

/-- `Player.__init__` defaults: position 0, food 100, ammo 20, money 50,
health 100, wagon condition 100, empty effect and event lists. -/
def Player.mk0 (name : String) : Player :=
  { name := name, position := 0, food := 100, ammo := 20, money := 50,
    health := 100, wagon_condition := 100, active_effects := [], events := [] }

/-- `Player.consume_food`: `food = max(0, food - amount)`; if food hits 0,
`health = max(0, health - 5)`. -/
def Player.consume_food (p : Player) (amount : Int) : Player :=
  let p1 := { p with food := max 0 (p.food - amount) }
  if p1.food = 0 then { p1 with health := max 0 (p1.health - 5) } else p1

/-- `Player.add_food`: `food += amount`. -/
def Player.add_food (p : Player) (amount : Int) : Player :=
  { p with food := p.food + amount }

/-- `Player.use_ammo`: `ammo = max(0, ammo - amount)`. -/
def Player.use_ammo (p : Player) (amount : Int) : Player :=
  { p with ammo := max 0 (p.ammo - amount) }

/-- `Player.add_ammo`: `ammo += amount`. -/
def Player.add_ammo (p : Player) (amount : Int) : Player :=
  { p with ammo := p.ammo + amount }

/-- `Player.spend_money`: debits only when `money >= amount`, returning
whether the debit happened (the server ignores the returned flag). -/
def Player.spend_money (p : Player) (amount : Int) : Player × Bool :=
  if p.money ≥ amount then ({ p with money := p.money - amount }, true)
  else (p, false)

/-- `Player.earn_money`: `money += amount`. -/
def Player.earn_money (p : Player) (amount : Int) : Player :=
  { p with money := p.money + amount }

/-- `Player.modify_health`: `health = max(0, min(100, health + amount))`. -/
def Player.modify_health (p : Player) (amount : Int) : Player :=
  { p with health := max 0 (min 100 (p.health + amount)) }

/-- `Player.repair_wagon`: `wagon_condition = min(100, wagon_condition + amount)`. -/
def Player.repair_wagon (p : Player) (amount : Int) : Player :=
  { p with wagon_condition := min 100 (p.wagon_condition + amount) }

/-- `Player.damage_wagon`: `wagon_condition = max(0, wagon_condition - amount)`. -/
def Player.damage_wagon (p : Player) (amount : Int) : Player :=
  { p with wagon_condition := max 0 (p.wagon_condition - amount) }

/-- The serialized event view of `Player.to_dict`: the Python slice
`self.events[-5:]` ("Keep last 5 events"), i.e. the whole list when it has
at most five entries and otherwise its last five. -/
def Player.eventsView (p : Player) : List Event :=
  p.events.drop (p.events.length - 5)

/-- `GameState` of `server.py`.  `landmarks` is the position→name mapping,
kept as an association list in the insertion order of the Python dict;
`weather_conditions` is the constant four-element list. -/
structure GameState where
  players : List Player
  day : Int
  trail_length : Int
  landmarks : List (Int × String)
  current_weather : String
deriving DecidableEq, Repr

/-- `GameState.__init__`: no players, day 1, trail length 100, the five
fort landmarks, weather "Clear". -/
def GameState.init : GameState :=
  { players := [],
    day := 1,
    trail_length := 100,
    landmarks := [(10, "Independence"), (30, "Fort Kearney"),
                  (50, "Fort Laramie"), (70, "Fort Bridger"),
                  (90, "Fort Hall")],
    current_weather := "Clear" }

/-- The constant `weather_conditions` list of `GameState.__init__`. -/
def weather_conditions : List String := ["Clear", "Rain", "Storm", "Heat Wave"]

/-- Outcome of the random draws inside `GameState.generate_event`:
either the 30% roll fails (`skip`), or an event type is drawn.  Drawing
`BANDITS` or `HUNTING` falls through every branch of the source and also
produces no event.  The `ILLNESS`/`WEATHER`/`TRADING_POST` draws carry the
`time.time()` tick of the constructed event, and the weather draw carries
the weather string drawn by `random.choice(self.weather_conditions)`. -/
inductive GenDraw where
  | skip
  | banditsOrHunting
  | illness (ts : Int)
  | weatherEv (w : String) (ts : Int)
  | tradingPost (ts : Int)
deriving DecidableEq, Repr

/-- The illness event of `GameState.generate_event`. -/
def illnessEvent (ts : Int) : Event :=
  { type := EventType.ILLNESS,
    description := "You\x27re feeling sick!",
    choices := [("rest", "Rest for a day (lose 1 day, recover 20 health)"),
                ("continue", "Continue traveling (risk worsening condition)")],
    effects := [("rest", [("health", 20), ("day", 1)]),
                ("continue", [("health", -10)])],
    timestamp := ts }

/-- The weather-change event of `GameState.generate_event` for the drawn
weather `w`: continuing costs 5 wagon condition in a storm and 0 otherwise;
waiting costs a day. -/
def weatherEvent (w : String) (ts : Int) : Event :=
  { type := EventType.WEATHER,
    description := "The weather has changed to " ++ w ++ "!",
    choices := [("continue", "Continue traveling"),
                ("wait", "Wait for better weather")],
    effects := [("continue", [("wagon_condition", if w = "Storm" then -5 else 0)]),
                ("wait", [("day", 1)])],
    timestamp := ts }

/-- The trading-post event of `GameState.generate_event`. -/
def tradingPostEvent (ts : Int) : Event :=
  { type := EventType.TRADING_POST,
    description := "You\x27ve found a trading post!",
    choices := [("buy_food", "Buy food (10 money for 15 food)"),
                ("buy_ammo", "Buy ammo (5 money for 10 ammo)"),
                ("repair", "Repair wagon (20 money for 30 condition)")],
    effects := [("buy_food", [("money", -10), ("food", 15)]),
                ("buy_ammo", [("money", -5), ("ammo", 10)]),
                ("repair", [("money", -20), ("wagon_condition", 30)])],
    timestamp := ts }

/-- `GameState.generate_event` as a function of the random draw: the event
catalogue keyed by the drawn type, `none` when the 30% roll fails or when
the drawn type (`BANDITS`, `HUNTING`) has no branch in the source. -/
def generate_event (d : GenDraw) : Option Event :=
  match d with
  | GenDraw.skip => none
  | GenDraw.banditsOrHunting => none
  | GenDraw.illness ts => some (illnessEvent ts)
  | GenDraw.weatherEv w ts => some (weatherEvent w ts)
  | GenDraw.tradingPost ts => some (tradingPostEvent ts)

/-- The optional `choice` payload of an action message.  The client sends
`{"event_time": t, "choice": c}` with `event_choice` actions and
`{"direction": d}` with `move` actions.  The server only ever reads the
payload in its `event_choice` branch; a payload without an `"event_time"`
key reaching that branch would raise `KeyError` while scanning a non-empty
log (the connection loop catches it) and scans to a harmless `None` on an
empty log — neither path mutates the player, and it is modelled as the
no-op the player sees. -/
inductive ChoicePayload where
  | eventChoice (event_time : Int) (choice : String)
  | direction (d : Int)
deriving DecidableEq, Repr

/-- The random draws consumed by one `GameServer.handle_action` call:
the 70% hunt-success roll, the `generate_event` draw, the 10% weather
re-roll (`some w` when it fires, with the drawn weather), and the
`time.time()` tick stamped on an event created directly by the `move` or
`hunt` branch. -/
structure Draws where
  huntSuccess : Bool
  gen : GenDraw
  weatherChange : Option String
  ts : Int
deriving DecidableEq, Repr

/-- One `{key: delta}` step of the `event_choice` effect loop in
`GameServer.handle_action`, threading the day delta accumulated by the
`"day"` key (the source adds it to the global `game_state.day`). -/
def applyEffect (pd : Player × Int) (kv : String × Int) : Player × Int :=
  let p := pd.1
  let day := pd.2
  let key := kv.1
  let value := kv.2
  if key = "health" then (p.modify_health value, day)
  else if key = "food" then (p.add_food value, day)
  else if key = "ammo" then (p.add_ammo value, day)
  else if key = "money" then
    if value < 0 then ((p.spend_money (-value)).1, day)
    else (p.earn_money value, day)
  else if key = "wagon_condition" then
    if value < 0 then (p.damage_wagon (-value), day)
    else (p.repair_wagon value, day)
  else if key = "day" then (p, day + value)
  else (p, day)

/-- The `for key, value in effects.items()` loop of the `event_choice`
branch, in dict insertion order; returns the updated player and the total
delta added to the global day counter. -/
def applyEffects (p : Player) (effs : List (String × Int)) : Player × Int :=
  effs.foldl applyEffect (p, 0)

/-- The landmark-arrival event appended by the `move` branch when the new
position is a key of `landmarks`. -/
def landmarkEvent (lname : String) (ts : Int) : Event :=
  { type := EventType.TRADING_POST,
    description := "You\x27ve reached " ++ lname ++ "!",
    choices := [], effects := [], timestamp := ts }

/-- The success hunt log entry of the `hunt` branch. -/
def huntSuccessEvent (ts : Int) : Event :=
  { type := EventType.HUNTING,
    description := "Successful hunt! Gained 20 food.",
    choices := [], effects := [], timestamp := ts }

/-- The failure hunt log entry of the `hunt` branch. -/
def huntFailEvent (ts : Int) : Event :=
  { type := EventType.HUNTING,
    description := "The hunt was unsuccessful.",
    choices := [], effects := [], timestamp := ts }

/-- The per-action part of `GameServer.handle_action`: the `move`, `hunt`
and `event_choice` branches applied to the acting player (an unknown
action string falls through them all).  Returns the updated player and the
delta added to the global day counter by `"day"` effects. -/
def actionBranch (gs : GameState) (action : String) (choice : Option ChoicePayload)
    (d : Draws) (p : Player) : Player × Int :=
  if action = "move" then
    let p1 := { p with position := p.position + 1 }
    let p2 := p1.consume_food 5
    match gs.landmarks.lookup p2.position with
    | some lname => ({ p2 with events := p2.events ++ [landmarkEvent lname d.ts] }, 0)
    | none => (p2, 0)
  else if action = "hunt" then
    if p.ammo ≥ 2 then
      let p1 := p.use_ammo 2
      if d.huntSuccess then
        let p2 := p1.add_food 20
        ({ p2 with events := p2.events ++ [huntSuccessEvent d.ts] }, 0)
      else
        ({ p1 with events := p1.events ++ [huntFailEvent d.ts] }, 0)
    else (p, 0)
  else if action = "event_choice" then
    match choice with
    | some (ChoicePayload.eventChoice t c) =>
      match p.events.find? (fun e => e.timestamp = t) with
      | some e =>
        match e.effects.lookup c with
        | some effs => applyEffects p effs
        | none => (p, 0)
      | none => (p, 0)
    | _ => (p, 0)
  else (p, 0)

/-- Replace (in place) the first player in the list whose name matches,
mirroring the Python mutation of the object returned by
`next((p for p in players if p.name == player_name), None)`. -/
def setPlayer : List Player → String → Player → List Player
  | [], _, _ => []
  | q :: rest, name, r =>
      if q.name = name then r :: rest else q :: setPlayer rest name r

/-- The `# Generate new event` tail of `GameServer.handle_action`: the
`generate_event` result, when any, is appended to the player log. -/
def appendGen (g : GenDraw) (p : Player) : Player :=
  match generate_event g with
  | some e => { p with events := p.events ++ [e] }
  | none => p

/-- `GameServer.handle_action`: look the player up by name (creating and
appending a default player on first sight), run the action branch, append
the `generate_event` result to the player log, and re-roll the weather. -/
def handle_action (gs : GameState) (player_name : String) (action : String)
    (choice : Option ChoicePayload) (d : Draws) : GameState :=
  let found := gs.players.find? (fun p => p.name = player_name)
  let players0 :=
    match found with
    | some _ => gs.players
    | none => gs.players ++ [Player.mk0 player_name]
  let p0 := found.getD (Player.mk0 player_name)
  let pd := actionBranch gs action choice d p0
  let p2 := appendGen d.gen pd.1
  { gs with
    players := setPlayer players0 player_name p2,
    day := gs.day + pd.2,
    current_weather := d.weatherChange.getD gs.current_weather }

/-- Look a player up by name, as the server does. -/
def getPlayer (gs : GameState) (name : String) : Option Player :=
  gs.players.find? (fun p => p.name = name)

/-- A draw record on which every random roll comes up empty: the hunt roll
fails, no event is generated, the weather stays. -/
def quietDraws : Draws :=
  { huntSuccess := false, gen := GenDraw.skip, weatherChange := none, ts := 0 }

/-- A sequence of `move` actions by one player, one `handle_action` call
per draw record. -/
def applyMoves (gs : GameState) (name : String) (ds : List Draws) : GameState :=
  ds.foldl (fun g d => handle_action g name "move" none d) gs

/-- `n` repetitions of the same action with the same draws. -/
def iterate_action (name action : String) (choice : Option ChoicePayload)
    (d : Draws) : Nat → GameState → GameState
  | 0, gs => gs
  | n + 1, gs => iterate_action name action choice d n (handle_action gs name action choice d)

/-- A server state holding exactly one player. -/
def gsWith (p : Player) : GameState := { GameState.init with players := [p] }

/-- Draws on which `generate_event` fires with an illness event stamped 7. -/
def illnessDraws : Draws :=
  { huntSuccess := false, gen := GenDraw.illness 7, weatherChange := none, ts := 0 }

/-- A fresh state after one unknown action during which the random draw
handed Alice an illness event (timestamp 7). -/
def stateWithIllness : GameState :=
  handle_action GameState.init "Alice" "idle" none illnessDraws

/-- Resolve the illness event's `rest` choice for Alice. -/
def resolveRest (gs : GameState) : GameState :=
  handle_action gs "Alice" "event_choice" (some (ChoicePayload.eventChoice 7 "rest")) quietDraws

/-- Draws on which `generate_event` fires with a trading-post event
stamped 3. -/
def tradingDraws : Draws :=
  { huntSuccess := false, gen := GenDraw.tradingPost 3, weatherChange := none, ts := 0 }

/-- A fresh state after one unknown action during which the random draw
handed Alice a trading-post event (timestamp 3). -/
def stateWithTradingPost : GameState :=
  handle_action GameState.init "Alice" "idle" none tradingDraws

/-- Resolve the trading post's `buy_food` choice for Alice `n` times. -/
def resolveBuyFood (n : Nat) : GameState :=
  iterate_action "Alice" "event_choice" (some (ChoicePayload.eventChoice 3 "buy_food"))
    quietDraws n stateWithTradingPost

/-- A fresh state after eleven actions, each of which generated an illness
event for Alice. -/
def elevenIllness : GameState :=
  iterate_action "Alice" "idle" none illnessDraws 11 GameState.init

/-- A player holding an unresolved illness event (timestamp 7). -/
def illPlayer : Player := { Player.mk0 "A" with events := [illnessEvent 7] }

/-- A player with 5 money holding an unresolved trading-post event
(timestamp 3). -/
def poorTrader : Player :=
  { Player.mk0 "A" with money := 5, events := [tradingPostEvent 3] }

/-! ### Wire codec

`GameServer.broadcast_game_state` encodes snapshots with
`json.dumps(self.game_state.to_dict()).encode()` and
`GameServer.handle_client` decodes actions with
`json.loads(data.decode())`.  We model the Python values handed to the
codec as `PyVal` trees and the codec round trip `json.loads ∘ json.dumps`
as `dumpsLoads`. -/

/-- A Python value as handed to `json.dumps` / returned by `json.loads`:
ints, strings, lists and dicts (association lists in insertion order;
Python dicts have pairwise-distinct keys).  Numbers that are floats in
the source (event timestamps) follow the integer-tick convention of this
embedding. -/
inductive PyVal where
  | pyInt : Int → PyVal
  | pyStr : String → PyVal
  | pyList : List PyVal → PyVal
  | pyDict : List (PyVal × PyVal) → PyVal

/-- How `json.dumps` renders a dict key: string keys verbatim, integer
keys coerced to their decimal string form (other key types raise
`TypeError`, modelled as `none`). -/
def jsonKeyStr : PyVal → Option String
  | PyVal.pyInt n => some (toString n)
  | PyVal.pyStr s => some s
  | _ => none

mutual

/-- The composition `json.loads (json.dumps v)`: values pass through
structurally except that every dict key is coerced to the string
`json.dumps` writes for it; an unserializable key makes the whole dump
raise (`none`). -/
def dumpsLoads : PyVal → Option PyVal
  | PyVal.pyInt n => some (PyVal.pyInt n)
  | PyVal.pyStr s => some (PyVal.pyStr s)
  | PyVal.pyList l => Option.map PyVal.pyList (dumpsLoadsList l)
  | PyVal.pyDict l => Option.map PyVal.pyDict (dumpsLoadsDict l)

/-- `dumpsLoads` element-wise on a list value. -/
def dumpsLoadsList : List PyVal → Option (List PyVal)
  | [] => some []
  | v :: vs =>
    match dumpsLoads v, dumpsLoadsList vs with
    | some v1, some vs1 => some (v1 :: vs1)
    | _, _ => none

/-- `dumpsLoads` entry-wise on a dict value: each key is rendered by
`jsonKeyStr` and read back as a string. -/
def dumpsLoadsDict : List (PyVal × PyVal) → Option (List (PyVal × PyVal))
  | [] => some []
  | kv :: rest =>
    match jsonKeyStr kv.1, dumpsLoads kv.2, dumpsLoadsDict rest with
    | some ks, some v1, some rest1 => some ((PyVal.pyStr ks, v1) :: rest1)
    | _, _, _ => none

end

/-- Whether a dict key is already a string. -/
def isStrKey : PyVal → Bool
  | PyVal.pyStr _ => true
  | _ => false

mutual

/-- Every dict key in the tree is already a string (so `json.dumps`
writes it back unchanged). -/
def allStrKeys : PyVal → Bool
  | PyVal.pyInt _ => true
  | PyVal.pyStr _ => true
  | PyVal.pyList l => allStrKeysList l
  | PyVal.pyDict l => allStrKeysDict l

/-- `allStrKeys` over a list value. -/
def allStrKeysList : List PyVal → Bool
  | [] => true
  | v :: vs => allStrKeys v && allStrKeysList vs

/-- `allStrKeys` over a dict value. -/
def allStrKeysDict : List (PyVal × PyVal) → Bool
  | [] => true
  | kv :: rest => isStrKey kv.1 && allStrKeys kv.2 && allStrKeysDict rest

end


/-- How `json.dumps` writes one character inside a string literal: quote,
backslash and the common control characters are escaped; the remaining
characters that occur in this program's strings are written verbatim. -/
def escapeChar (c : Char) : String :=
  if c = '"' then "\\\""
  else if c = '\\' then "\\\\"
  else if c = '\n' then "\\n"
  else if c = '\t' then "\\t"
  else if c = '\r' then "\\r"
  else String.singleton c

/-- The body of a `json.dumps` string literal. -/
def escapeJson (s : String) : String :=
  String.join (s.toList.map escapeChar)

/-- A `json.dumps` string literal: the escaped body in double quotes. -/
def strLit (s : String) : String := "\"" ++ escapeJson s ++ "\""

mutual

/-- `json.dumps` with its default separators: ints as their decimal form,
strings as quoted literals, lists bracketed and comma-separated, dicts
braced with `key: value` entries whose keys are rendered through
`jsonKeyStr` (so an integer key and its coerced string form produce
identical bytes); an unserializable key raises (`none`). -/
def dumps : PyVal → Option String
  | PyVal.pyInt n => some (toString n)
  | PyVal.pyStr s => some (strLit s)
  | PyVal.pyList l =>
    (dumpsElems l).map (fun ss => "[" ++ String.intercalate ", " ss ++ "]")
  | PyVal.pyDict l =>
    (dumpsEntries l).map (fun ss => "\x7b" ++ String.intercalate ", " ss ++ "\x7d")

/-- `dumps` of each element of a list value. -/
def dumpsElems : List PyVal → Option (List String)
  | [] => some []
  | v :: vs =>
    match dumps v, dumpsElems vs with
    | some s, some ss => some (s :: ss)
    | _, _ => none

/-- `dumps` of each `key: value` entry of a dict value. -/
def dumpsEntries : List (PyVal × PyVal) → Option (List String)
  | [] => some []
  | kv :: rest =>
    match jsonKeyStr kv.1, dumps kv.2, dumpsEntries rest with
    | some ks, some s, some ss => some ((strLit ks ++ ": " ++ s) :: ss)
    | _, _, _ => none

end

/-- `Event.to_dict`: type value string, description, choices, effects and
the timestamp. -/
def Event.to_dict (e : Event) : PyVal :=
  PyVal.pyDict
    [(PyVal.pyStr "type",
      PyVal.pyStr (match e.type with
        | EventType.ILLNESS => "illness"
        | EventType.WEATHER => "weather"
        | EventType.BANDITS => "bandits"
        | EventType.TRADING_POST => "trading_post"
        | EventType.HUNTING => "hunting")),
     (PyVal.pyStr "description", PyVal.pyStr e.description),
     (PyVal.pyStr "choices",
      PyVal.pyDict (e.choices.map fun kv => (PyVal.pyStr kv.1, PyVal.pyStr kv.2))),
     (PyVal.pyStr "effects",
      PyVal.pyDict (e.effects.map fun kv =>
        (PyVal.pyStr kv.1,
         PyVal.pyDict (kv.2.map fun kd => (PyVal.pyStr kd.1, PyVal.pyInt kd.2))))),
     (PyVal.pyStr "timestamp", PyVal.pyInt e.timestamp)]

/-- `Player.to_dict`: the scalar fields, the active effects, and only the
last five events (`self.events[-5:]`). -/
def Player.to_dict (p : Player) : PyVal :=
  PyVal.pyDict
    [(PyVal.pyStr "name", PyVal.pyStr p.name),
     (PyVal.pyStr "position", PyVal.pyInt p.position),
     (PyVal.pyStr "food", PyVal.pyInt p.food),
     (PyVal.pyStr "ammo", PyVal.pyInt p.ammo),
     (PyVal.pyStr "money", PyVal.pyInt p.money),
     (PyVal.pyStr "health", PyVal.pyInt p.health),
     (PyVal.pyStr "wagon_condition", PyVal.pyInt p.wagon_condition),
     (PyVal.pyStr "active_effects", PyVal.pyList (p.active_effects.map PyVal.pyStr)),
     (PyVal.pyStr "events", PyVal.pyList (p.eventsView.map Event.to_dict))]

/-- `GameState.to_dict`: the snapshot record.  The landmark mapping keeps
its integer keys here — the key coercion only happens inside
`json.dumps`. -/
def GameState.to_dict (gs : GameState) : PyVal :=
  PyVal.pyDict
    [(PyVal.pyStr "players", PyVal.pyList (gs.players.map Player.to_dict)),
     (PyVal.pyStr "day", PyVal.pyInt gs.day),
     (PyVal.pyStr "trail_length", PyVal.pyInt gs.trail_length),
     (PyVal.pyStr "landmarks",
      PyVal.pyDict (gs.landmarks.map fun kv => (PyVal.pyInt kv.1, PyVal.pyStr kv.2))),
     (PyVal.pyStr "current_weather", PyVal.pyStr gs.current_weather)]

/-- A concrete Action message as `GameClient.send_action` builds it for a
`move` keyed with `W`: player, action, the client skill map, and the
direction payload.  All of its dict keys are strings. -/
def actionMsgDict : PyVal :=
  PyVal.pyDict
    [(PyVal.pyStr "player", PyVal.pyStr "Alice"),
     (PyVal.pyStr "action", PyVal.pyStr "move"),
     (PyVal.pyStr "skills",
      PyVal.pyDict
        [(PyVal.pyStr "hunting", PyVal.pyInt 1),
         (PyVal.pyStr "gathering", PyVal.pyInt 1),
         (PyVal.pyStr "repair", PyVal.pyInt 1),
         (PyVal.pyStr "navigation", PyVal.pyInt 1),
         (PyVal.pyStr "trading", PyVal.pyInt 1)]),
     (PyVal.pyStr "choice",
      PyVal.pyDict [(PyVal.pyStr "direction", PyVal.pyInt 1)])]

/-- What `json.loads` returns on the encoded initial snapshot: the same
record with the five integer landmark keys come back as decimal
strings. -/
def decodedInitSnapshot : PyVal :=
  PyVal.pyDict
    [(PyVal.pyStr "players", PyVal.pyList []),
     (PyVal.pyStr "day", PyVal.pyInt 1),
     (PyVal.pyStr "trail_length", PyVal.pyInt 100),
     (PyVal.pyStr "landmarks",
      PyVal.pyDict [(PyVal.pyStr "10", PyVal.pyStr "Independence"),
                    (PyVal.pyStr "30", PyVal.pyStr "Fort Kearney"),
                    (PyVal.pyStr "50", PyVal.pyStr "Fort Laramie"),
                    (PyVal.pyStr "70", PyVal.pyStr "Fort Bridger"),
                    (PyVal.pyStr "90", PyVal.pyStr "Fort Hall")]),
     (PyVal.pyStr "current_weather", PyVal.pyStr "Clear")]

/-- `GameClient.reconcile_position` of `src/client.py` with the
`PredictionConfig` fields as parameters (`tolerance` is
`reconciliation_tolerance`, `factor` is `interpolation_factor`; the
client constructs them as 2.0 and 0.3).  `predicted` is
`self.predicted_position`, `none` before any prediction is stored. -/
def reconcile_position (predicted : Option ℚ) (tolerance factor : ℚ)
    (server_pos : ℚ) : ℚ :=
  match predicted with
  | some p =>
    if |server_pos - p| > tolerance then
      server_pos + (server_pos - p) * factor
    else server_pos
  | none => server_pos

/-! ### Field-tracking lemmas for the primitive player operations -/

/-- `consume_food` sets `food` to the clamped difference. -/
theorem consume_food_food (p : Player) (a : Int) :
    (p.consume_food a).food = max 0 (p.food - a) := by
  unfold Player.consume_food; dsimp only; split <;> rfl

/-- `consume_food` does not change the name. -/
theorem consume_food_name (p : Player) (a : Int) :
    (p.consume_food a).name = p.name := by
  unfold Player.consume_food; dsimp only; split <;> rfl

/-- `consume_food` does not change the position. -/
theorem consume_food_position (p : Player) (a : Int) :
    (p.consume_food a).position = p.position := by
  unfold Player.consume_food; dsimp only; split <;> rfl

/-- `consume_food` does not change the event log. -/
theorem consume_food_events (p : Player) (a : Int) :
    (p.consume_food a).events = p.events := by
  unfold Player.consume_food; dsimp only; split <;> rfl

/-- `consume_food` does not change the ammo. -/
theorem consume_food_ammo (p : Player) (a : Int) :
    (p.consume_food a).ammo = p.ammo := by
  unfold Player.consume_food; dsimp only; split <;> rfl

/-- `consume_food` does not change the money. -/
theorem consume_food_money (p : Player) (a : Int) :
    (p.consume_food a).money = p.money := by
  unfold Player.consume_food; dsimp only; split <;> rfl

/-- `spend_money` does not change the name. -/
theorem spend_money_name (p : Player) (a : Int) :
    ((p.spend_money a).1).name = p.name := by
  unfold Player.spend_money; split <;> rfl

/-- The money left by `spend_money`: debited only when covered. -/
theorem spend_money_money (p : Player) (a : Int) :
    ((p.spend_money a).1).money = if p.money ≥ a then p.money - a else p.money := by
  unfold Player.spend_money; split <;> simp_all

/-- `spend_money` does not change the food. -/
theorem spend_money_food (p : Player) (a : Int) :
    ((p.spend_money a).1).food = p.food := by
  unfold Player.spend_money; split <;> rfl

/-- `spend_money` does not change the ammo. -/
theorem spend_money_ammo (p : Player) (a : Int) :
    ((p.spend_money a).1).ammo = p.ammo := by
  unfold Player.spend_money; split <;> rfl

/-- One effect step does not change the name. -/
theorem applyEffect_name (pd : Player × Int) (kv : String × Int) :
    ((applyEffect pd kv).1).name = pd.1.name := by
  unfold applyEffect
  dsimp only
  split_ifs <;>
    simp [Player.modify_health, Player.add_food, Player.add_ammo, spend_money_name,
      Player.earn_money, Player.damage_wagon, Player.repair_wagon]

/-- One effect step does not change the event log. -/
theorem applyEffect_events (pd : Player × Int) (kv : String × Int) :
    ((applyEffect pd kv).1).events = pd.1.events := by
  unfold applyEffect Player.spend_money
  dsimp only
  split_ifs <;>
    simp [Player.modify_health, Player.add_food, Player.add_ammo,
      Player.earn_money, Player.damage_wagon, Player.repair_wagon]

/-- The effect loop does not change the name. -/
theorem applyEffects_fold_name (effs : List (String × Int)) :
    ∀ pd : Player × Int, ((effs.foldl applyEffect pd).1).name = pd.1.name := by
  induction effs with
  | nil => intro pd; rfl
  | cons kv rest ih => intro pd; rw [List.foldl_cons, ih, applyEffect_name]

/-- `applyEffects` does not change the name. -/
theorem applyEffects_name (p : Player) (effs : List (String × Int)) :
    ((applyEffects p effs).1).name = p.name :=
  applyEffects_fold_name effs (p, 0)

/-- The effect loop does not change the event log. -/
theorem applyEffects_fold_events (effs : List (String × Int)) :
    ∀ pd : Player × Int, ((effs.foldl applyEffect pd).1).events = pd.1.events := by
  induction effs with
  | nil => intro pd; rfl
  | cons kv rest ih => intro pd; rw [List.foldl_cons, ih, applyEffect_events]

/-- `applyEffects` does not change the event log. -/
theorem applyEffects_events (p : Player) (effs : List (String × Int)) :
    ((applyEffects p effs).1).events = p.events :=
  applyEffects_fold_events effs (p, 0)

/-- The action branch does not change the acting player's name. -/
theorem actionBranch_name (gs : GameState) (a : String) (c : Option ChoicePayload)
    (d : Draws) (p : Player) : ((actionBranch gs a c d p).1).name = p.name := by
  unfold actionBranch
  dsimp only
  repeat' split
  all_goals try rfl
  all_goals simp [consume_food_name, Player.use_ammo, Player.add_food, applyEffects_name]

/-- Appending the generated event does not change the name. -/
theorem appendGen_name (g : GenDraw) (p : Player) :
    (appendGen g p).name = p.name := by
  unfold appendGen; cases generate_event g <;> rfl

/-- With no generated event, `appendGen` is the identity. -/
theorem appendGen_skip (p : Player) : appendGen GenDraw.skip p = p := rfl

/-- `appendGen` appends exactly the generated event, if any. -/
theorem appendGen_events (g : GenDraw) (p : Player) :
    (appendGen g p).events = p.events ++ (generate_event g).toList := by
  unfold appendGen; cases generate_event g <;> simp

/-- `appendGen` does not change the food. -/
theorem appendGen_food (g : GenDraw) (p : Player) :
    (appendGen g p).food = p.food := by
  unfold appendGen; cases generate_event g <;> rfl

/-- `appendGen` does not change the ammo. -/
theorem appendGen_ammo (g : GenDraw) (p : Player) :
    (appendGen g p).ammo = p.ammo := by
  unfold appendGen; cases generate_event g <;> rfl

/-- `appendGen` does not change the money. -/
theorem appendGen_money (g : GenDraw) (p : Player) :
    (appendGen g p).money = p.money := by
  unfold appendGen; cases generate_event g <;> rfl

/-- `appendGen` does not change the health. -/
theorem appendGen_health (g : GenDraw) (p : Player) :
    (appendGen g p).health = p.health := by
  unfold appendGen; cases generate_event g <;> rfl

/-- `appendGen` does not change the wagon condition. -/
theorem appendGen_wagon (g : GenDraw) (p : Player) :
    (appendGen g p).wagon_condition = p.wagon_condition := by
  unfold appendGen; cases generate_event g <;> rfl

/-- `appendGen` does not change the position. -/
theorem appendGen_position (g : GenDraw) (p : Player) :
    (appendGen g p).position = p.position := by
  unfold appendGen; cases generate_event g <;> rfl

/-! ### Locating the acting player after `handle_action` -/

/-- Replacing the first name match preserves findability: the lookup that
previously found a player with this name now finds the replacement. -/
theorem setPlayer_find (l : List Player) (nm : String) (q : Player)
    (hq : q.name = nm) (p : Player)
    (h : l.find? (fun r => r.name = nm) = some p) :
    (setPlayer l nm q).find? (fun r => r.name = nm) = some q := by
  induction l with
  | nil => simp [List.find?] at h
  | cons r rest ih =>
    by_cases hr : r.name = nm
    · simp [setPlayer, hr, List.find?, hq]
    · rw [List.find?_cons_of_neg _ (by simpa using hr)] at h
      unfold setPlayer
      rw [if_neg hr, List.find?_cons_of_neg _ (by simpa using hr)]
      exact ih h

/-- A found player bears the looked-up name. -/
theorem find_name (l : List Player) (nm : String) (p : Player)
    (h : l.find? (fun r => r.name = nm) = some p) : p.name = nm := by
  have := List.find?_some h
  simpa using this

/-- Master lemma: for an existing player, `handle_action` updates exactly
that player, to the action branch's result with the generated event
appended. -/
theorem getPlayer_handle (gs : GameState) (nm action : String)
    (choice : Option ChoicePayload) (d : Draws) (p : Player)
    (h : getPlayer gs nm = some p) :
    getPlayer (handle_action gs nm action choice d) nm =
      some (appendGen d.gen (actionBranch gs action choice d p).1) := by
  unfold getPlayer at h
  unfold getPlayer handle_action
  rw [h]
  dsimp only [Option.getD]
  exact setPlayer_find _ _ _
    (by rw [appendGen_name, actionBranch_name]; exact find_name _ _ _ h) _ h

/-! ### Shape of the individual action branches -/

/-- The `move` branch advances the position by exactly one. -/
theorem actionBranch_move_position (gs : GameState) (c : Option ChoicePayload)
    (d : Draws) (p : Player) :
    ((actionBranch gs "move" c d p).1).position = p.position + 1 := by
  unfold actionBranch
  dsimp only
  rw [if_pos rfl]
  split <;> simp [consume_food_position]

/-- The `hunt` branch in closed form: gated on `ammo >= 2`, the ammo debit
happens on both draw outcomes, food and the log entry depend on the
draw. -/
theorem actionBranch_hunt (gs : GameState) (c : Option ChoicePayload) (d : Draws)
    (p : Player) :
    actionBranch gs "hunt" c d p =
      if p.ammo ≥ 2 then
        if d.huntSuccess then
          ({ (p.use_ammo 2).add_food 20 with
              events := p.events ++ [huntSuccessEvent d.ts] }, 0)
        else
          ({ p.use_ammo 2 with events := p.events ++ [huntFailEvent d.ts] }, 0)
      else (p, 0) := by
  unfold actionBranch
  dsimp only
  rw [if_neg (by decide), if_pos rfl]
  split_ifs <;> simp [Player.use_ammo, Player.add_food]

/-- The `event_choice` branch in closed form: look up by timestamp, then
by choice key, then run the effect loop. -/
theorem actionBranch_eventChoice (gs : GameState) (t : Int) (c : String)
    (d : Draws) (p : Player) :
    actionBranch gs "event_choice" (some (ChoicePayload.eventChoice t c)) d p =
      match p.events.find? (fun e => e.timestamp = t) with
      | some e =>
        match e.effects.lookup c with
        | some effs => applyEffects p effs
        | none => (p, 0)
      | none => (p, 0) := by
  unfold actionBranch
  dsimp only
  rw [if_neg (by decide), if_neg (by decide), if_pos rfl]

/-- Resolving an event choice never adds or removes log entries. -/
theorem actionBranch_eventChoice_events (gs : GameState) (t : Int) (c : String)
    (d : Draws) (p : Player) :
    ((actionBranch gs "event_choice" (some (ChoicePayload.eventChoice t c)) d p).1).events
      = p.events := by
  rw [actionBranch_eventChoice]
  repeat' split
  all_goals simp [applyEffects_events]

/-- Every action branch only appends to the event log. -/
theorem actionBranch_events_append (gs : GameState) (a : String)
    (c : Option ChoicePayload) (d : Draws) (p : Player) :
    ∃ tl, ((actionBranch gs a c d p).1).events = p.events ++ tl := by
  unfold actionBranch
  dsimp only
  repeat' split
  all_goals try simp only [consume_food_events, applyEffects_events,
    Player.use_ammo, Player.add_food]
  all_goals first
    | exact ⟨[], (List.append_nil _).symm⟩
    | exact ⟨_, rfl⟩

/-- The two-entry `buy_food` bundle evaluates to a gated money debit
followed by an unconditional food credit. -/
theorem applyEffects_buy_food (p : Player) :
    applyEffects p [("money", -10), ("food", 15)] =
      (((p.spend_money 10).1).add_food 15, 0) := by
  unfold applyEffects
  simp only [List.foldl_cons, List.foldl_nil]
  unfold applyEffect
  simp

/-! ### Round-trip of string-keyed values through the codec -/

mutual

/-- `dumpsLoads` is the identity on values whose dict keys are all
strings. -/
theorem dl_id (v : PyVal) (h : allStrKeys v = true) : dumpsLoads v = some v := by
  cases v with
  | pyInt n => simp [dumpsLoads]
  | pyStr s => simp [dumpsLoads]
  | pyList l =>
    have hl : allStrKeysList l = true := by simpa [allStrKeys] using h
    simp [dumpsLoads, dlList_id l hl]
  | pyDict l =>
    have hl : allStrKeysDict l = true := by simpa [allStrKeys] using h
    simp [dumpsLoads, dlDict_id l hl]

/-- `dumpsLoadsList` is the identity on lists of string-keyed values. -/
theorem dlList_id (l : List PyVal) (h : allStrKeysList l = true) :
    dumpsLoadsList l = some l := by
  cases l with
  | nil => simp [dumpsLoadsList]
  | cons v vs =>
    have hx : allStrKeys v = true ∧ allStrKeysList vs = true := by
      simpa [allStrKeysList, Bool.and_eq_true] using h
    simp [dumpsLoadsList, dl_id v hx.1, dlList_id vs hx.2]

/-- `dumpsLoadsDict` is the identity on string-keyed entry lists. -/
theorem dlDict_id (l : List (PyVal × PyVal)) (h : allStrKeysDict l = true) :
    dumpsLoadsDict l = some l := by
  cases l with
  | nil => simp [dumpsLoadsDict]
  | cons kv rest =>
    obtain ⟨k, v⟩ := kv
    have hx : isStrKey k = true ∧
        allStrKeys v = true ∧ allStrKeysDict rest = true := by
      simpa [allStrKeysDict, Bool.and_eq_true, and_assoc] using h
    cases k with
    | pyStr s =>
      have e1 := dl_id v hx.2.1
      have e2 := dlDict_id rest hx.2.2
      simp only [dumpsLoadsDict, jsonKeyStr]
      rw [e1, e2]
    | pyInt n => simp [isStrKey] at hx
    | pyList a => simp [isStrKey] at hx
    | pyDict a => simp [isStrKey] at hx

end

mutual

/-- Whatever the codec round trip turns a value into re-encodes to the
exact bytes of the original: key coercion is invisible at the byte
level. -/
theorem dumps_dl (v w : PyVal) (h : dumpsLoads v = some w) : dumps w = dumps v := by
  cases v with
  | pyInt n =>
    simp [dumpsLoads] at h
    rw [← h]
  | pyStr s =>
    simp [dumpsLoads] at h
    rw [← h]
  | pyList l =>
    simp only [dumpsLoads, Option.map_eq_some'] at h
    obtain ⟨ls, hls, hw⟩ := h
    rw [← hw]
    simp only [dumps]
    rw [dumpsElems_dl l ls hls]
  | pyDict l =>
    simp only [dumpsLoads, Option.map_eq_some'] at h
    obtain ⟨ld, hld, hw⟩ := h
    rw [← hw]
    simp only [dumps]
    rw [dumpsEntries_dl l ld hld]

/-- Element-wise byte-level stability of the round trip on list values. -/
theorem dumpsElems_dl (l ls : List PyVal) (h : dumpsLoadsList l = some ls) :
    dumpsElems ls = dumpsElems l := by
  cases l with
  | nil =>
    simp [dumpsLoadsList] at h
    rw [← h]
  | cons v vs =>
    cases hv : dumpsLoads v with
    | none => simp [dumpsLoadsList, hv] at h
    | some v1 =>
      cases hvs : dumpsLoadsList vs with
      | none => simp [dumpsLoadsList, hv, hvs] at h
      | some vs1 =>
        simp only [dumpsLoadsList, hv, hvs, Option.some.injEq] at h
        rw [← h]
        simp only [dumpsElems]
        rw [dumps_dl v v1 hv, dumpsElems_dl vs vs1 hvs]

/-- Entry-wise byte-level stability of the round trip on dict values: a
coerced key renders to the same string literal as the original key. -/
theorem dumpsEntries_dl (l ld : List (PyVal × PyVal)) (h : dumpsLoadsDict l = some ld) :
    dumpsEntries ld = dumpsEntries l := by
  cases l with
  | nil =>
    simp [dumpsLoadsDict] at h
    rw [← h]
  | cons kv rest =>
    cases hk : jsonKeyStr kv.1 with
    | none => simp [dumpsLoadsDict, hk] at h
    | some ks =>
      cases hv : dumpsLoads kv.2 with
      | none => simp [dumpsLoadsDict, hk, hv] at h
      | some v1 =>
        cases hr : dumpsLoadsDict rest with
        | none => simp [dumpsLoadsDict, hk, hv, hr] at h
        | some rest1 =>
          simp only [dumpsLoadsDict, hk, hv, hr, Option.some.injEq] at h
          rw [← h]
          simp only [dumpsEntries]
          rw [dumps_dl _ _ hv, dumpsEntries_dl rest rest1 hr, hk]
          simp [jsonKeyStr]

end

/-- Decoding the encoded initial snapshot yields exactly the record with
string landmark keys. -/
theorem decoded_snapshot_eval :
    dumpsLoads GameState.init.to_dict = some decodedInitSnapshot := by
  simp [GameState.to_dict, GameState.init, dumpsLoads, dumpsLoadsList, dumpsLoadsDict,
    jsonKeyStr, decodedInitSnapshot]
  decide

/-! ### The claims -/

/-- Claim C1: `reconcile_position` does return the authoritative value
unchanged when the error is within tolerance (first conjunct), but when
the error exceeds the tolerance it returns
`server + (server - predicted) * factor`, which overshoots past the
authoritative position instead of landing strictly between predicted and
authoritative: at predicted 10, authoritative 13, tolerance 2 and blend
factor 3/10 (the `PredictionConfig` value) the error is 3 > 2 and the
result is 13.9, not strictly between 10 and 13. -/
theorem reconcile_overshoots_beyond_authoritative :
    reconcile_position (some 10) 2 (3/10) 11 = 11 ∧
    |(10:ℚ) - 13| > 2 ∧
    reconcile_position (some 10) 2 (3/10) 13 = 139/10 ∧
    ¬(10 < (139:ℚ)/10 ∧ (139:ℚ)/10 < 13) := by
  norm_num [reconcile_position]

/-- Claim C2: the server has no `buy_food` branch (nor `repair_wagon` or
`rest`): `handle_action` falls through every branch for these action
strings, so a player with money 50 still has money 50 and food 100
afterwards — not money 40 and food 115 as the claim states. -/
theorem buy_food_action_is_unhandled :
    ((getPlayer (handle_action GameState.init "Alice" "buy_food" none quietDraws) "Alice").map
        (fun p => (p.money, p.food)) = some (50, 100)) ∧
    ((getPlayer (handle_action GameState.init "Alice" "repair_wagon" none quietDraws) "Alice").map
        (fun p => (p.money, p.wagon_condition)) = some (50, 100)) ∧
    ((getPlayer (handle_action GameState.init "Alice" "rest" none quietDraws) "Alice").map
        (fun p => (p.money, p.health)) = some (50, 100)) := by
  decide

set_option maxRecDepth 4000 in
/-- Claim C3 counterexample: the `move` branch performs `position += 1`
with no clamp, so 101 moves from a fresh player put the position at 101,
strictly beyond the trail length 100. -/
theorem move_position_exceeds_trail_length :
    (getPlayer (applyMoves GameState.init "Alice" (List.replicate 101 quietDraws)) "Alice").map
        Player.position = some 101 ∧
    (applyMoves GameState.init "Alice" (List.replicate 101 quietDraws)).trail_length = 100 ∧
    ¬((101:Int) ≤ 100) := by
  decide

/-- Claim C3 (amended): over any sequence of `move` actions an existing
player's position advances by exactly one per move — hence it is
monotonically non-decreasing — but it is not clamped to the trail
length. -/
theorem move_advances_position_by_one_unclamped (gs : GameState) (nm : String)
    (ds : List Draws) (p : Player) (h : getPlayer gs nm = some p) :
    ∃ q, getPlayer (applyMoves gs nm ds) nm = some q ∧
      q.position = p.position + ds.length := by
  induction ds generalizing gs p with
  | nil => exact ⟨p, h, by simp [applyMoves]⟩
  | cons d rest ih =>
    have h1 := getPlayer_handle gs nm "move" none d p h
    obtain ⟨q, hq, hpos⟩ := ih (handle_action gs nm "move" none d) _ h1
    refine ⟨q, ?_, ?_⟩
    · simpa [applyMoves] using hq
    · rw [hpos, appendGen_position, actionBranch_move_position]
      simp only [List.length_cons]
      push_cast
      ring

/-- Witness for the amended C3 theorem at a one-player state and a single
move. -/
theorem move_advances_position_by_one_unclamped_witness :
    ∃ q, getPlayer (applyMoves (gsWith (Player.mk0 "A")) "A" [quietDraws]) "A" = some q ∧
      q.position = 1 := by
  obtain ⟨q, hq, hpos⟩ :=
    move_advances_position_by_one_unclamped (gsWith (Player.mk0 "A")) "A"
      [quietDraws] (Player.mk0 "A") (by decide)
  exact ⟨q, hq, by rw [hpos]; decide⟩

/-- Claim C4 counterexample: resolving the illness event's `rest` choice a
second time is not a no-op — the event is never consumed, so the bundle is
re-applied and the day advances from 2 to 3. -/
theorem event_choice_resolution_not_idempotent :
    resolveRest (resolveRest stateWithIllness) ≠ resolveRest stateWithIllness ∧
    stateWithIllness.day = 1 ∧
    (resolveRest stateWithIllness).day = 2 ∧
    (resolveRest (resolveRest stateWithIllness)).day = 3 := by
  decide

/-- Claim C4 (amended): an `event_choice` action never marks an event
consumed or removes it — with no freshly generated event the player's log
is exactly as before — so a second resolution finds the same event and
applies its effect bundle again (the counterexample shows the day
advancing on each resolution). -/
theorem event_choice_leaves_log_unchanged (gs : GameState) (nm : String)
    (t : Int) (c : String) (d : Draws) (p : Player)
    (hg : d.gen = GenDraw.skip) (h : getPlayer gs nm = some p) :
    ∃ q, getPlayer (handle_action gs nm "event_choice"
        (some (ChoicePayload.eventChoice t c)) d) nm = some q ∧
      q.events = p.events := by
  refine ⟨_, getPlayer_handle gs nm "event_choice"
    (some (ChoicePayload.eventChoice t c)) d p h, ?_⟩
  rw [hg, appendGen_skip, actionBranch_eventChoice_events]

/-- Witness for the amended C4 theorem: resolving `rest` leaves the
illness event in the log. -/
theorem event_choice_leaves_log_unchanged_witness :
    quietDraws.gen = GenDraw.skip ∧
    ∃ q, getPlayer (handle_action (gsWith illPlayer) "A" "event_choice"
        (some (ChoicePayload.eventChoice 7 "rest")) quietDraws) "A" = some q ∧
      q.events = illPlayer.events :=
  ⟨rfl, event_choice_leaves_log_unchanged (gsWith illPlayer) "A" 7 "rest"
    quietDraws illPlayer rfl (by decide)⟩

/-- Claim C5 counterexample: resolving the trading post's `buy_food`
choice drains money to 0 after five resolutions (food 175); the sixth
resolution leaves money at 0 — the −10 money delta is absorbed by the
failed debit — yet still credits 15 food (190): the bundle is applied
partially, not atomically. -/
theorem effect_bundle_partially_applied :
    ((getPlayer (resolveBuyFood 5) "Alice").map (fun p => (p.money, p.food))
       = some (0, 175)) ∧
    ((getPlayer (resolveBuyFood 6) "Alice").map (fun p => (p.money, p.food))
       = some (0, 190)) := by
  decide

/-- Claim C5 (amended): the effect bundle is applied per-key and
sequentially, not atomically: for a player with money < 10 resolving a
`buy_food` bundle `{money: -10, food: 15}`, the money debit is silently
absorbed while the food credit still lands. -/
theorem buy_food_effects_not_atomic (gs : GameState) (nm : String) (t : Int)
    (c : String) (d : Draws) (p : Player) (e : Event)
    (hg : d.gen = GenDraw.skip) (h : getPlayer gs nm = some p)
    (he : p.events.find? (fun ev => ev.timestamp = t) = some e)
    (hc : e.effects.lookup c = some [("money", -10), ("food", 15)])
    (hm : p.money < 10) :
    ∃ q, getPlayer (handle_action gs nm "event_choice"
        (some (ChoicePayload.eventChoice t c)) d) nm = some q ∧
      q.money = p.money ∧ q.food = p.food + 15 := by
  refine ⟨_, getPlayer_handle gs nm "event_choice"
    (some (ChoicePayload.eventChoice t c)) d p h, ?_, ?_⟩
  · rw [hg, appendGen_skip, actionBranch_eventChoice]
    simp only [he, hc, applyEffects_buy_food]
    simp only [Player.add_food, spend_money_money]
    rw [if_neg (by omega)]
  · rw [hg, appendGen_skip, actionBranch_eventChoice]
    simp only [he, hc, applyEffects_buy_food]
    simp only [Player.add_food, spend_money_food]

/-- Witness for the amended C5 theorem: a player with 5 money resolving
`buy_food` keeps the 5 money and still gains 15 food. -/
theorem buy_food_effects_not_atomic_witness :
    poorTrader.money < 10 ∧
    ∃ q, getPlayer (handle_action (gsWith poorTrader) "A" "event_choice"
        (some (ChoicePayload.eventChoice 3 "buy_food")) quietDraws) "A" = some q ∧
      q.money = poorTrader.money ∧ q.food = poorTrader.food + 15 :=
  ⟨by decide, buy_food_effects_not_atomic (gsWith poorTrader) "A" 3 "buy_food"
    quietDraws poorTrader (tradingPostEvent 3) rfl (by decide) (by decide)
    (by decide) (by decide)⟩

/-- Claim C6 counterexample: the initial snapshot does not survive the
codec round trip — `json.dumps` renders the integer landmark keys 10, 30,
50, 70, 90 as decimal strings, so `decode(encode(snapshot))` differs from
the snapshot. -/
theorem snapshot_roundtrip_changes_landmark_keys :
    dumpsLoads GameState.init.to_dict ≠ some GameState.init.to_dict := by
  intro hcontra
  simp [GameState.to_dict, GameState.init, dumpsLoads, dumpsLoadsList, dumpsLoadsDict,
    jsonKeyStr, Player.to_dict] at hcontra

/-- Claim C6 (amended): the value-level round trip `decode(encode(m)) = m`
holds exactly for messages whose dicts are string-keyed throughout — which
Action messages are — while the Snapshot's landmarks mapping carries
integer keys that encoding writes as decimal strings, so the snapshot
itself does not survive decode-after-encode (see the counterexample).
The byte-level direction of the claim is unaffected and still holds:
whenever decoding the bytes of `encode(v)` yields `w`, re-encoding `w`
reproduces those exact bytes — an integer key and its coerced string form
are written identically — so `encode(decode(bytes)) = bytes` for every
payload the codec emits. -/
theorem codec_roundtrip_string_keys_and_bytes (v : PyVal) :
    (allStrKeys v = true → dumpsLoads v = some v) ∧
    (∀ w, dumpsLoads v = some w → dumps w = dumps v) :=
  ⟨dl_id v, fun w hw => dumps_dl v w hw⟩

/-- Witness for the amended C6 theorem: the concrete `move` Action message
round-trips unchanged at the value level, and the decoded initial snapshot
re-encodes to exactly the original snapshot bytes. -/
theorem codec_roundtrip_string_keys_and_bytes_witness :
    allStrKeys actionMsgDict = true ∧
    dumpsLoads actionMsgDict = some actionMsgDict ∧
    dumpsLoads GameState.init.to_dict = some decodedInitSnapshot ∧
    dumps decodedInitSnapshot = dumps GameState.init.to_dict := by
  have h : allStrKeys actionMsgDict = true := by
    simp [actionMsgDict, allStrKeys, allStrKeysList, allStrKeysDict, isStrKey]
  exact ⟨h, (codec_roundtrip_string_keys_and_bytes actionMsgDict).1 h,
    decoded_snapshot_eval,
    (codec_roundtrip_string_keys_and_bytes GameState.init.to_dict).2
      decodedInitSnapshot decoded_snapshot_eval⟩

/-- Claim C7 counterexample: nothing ever evicts log entries — after
eleven event-generating actions the in-memory log holds 11 > 10
entries. -/
theorem event_log_grows_past_ten :
    (getPlayer elevenIllness "Alice").map (fun p => p.events.length) = some 11 ∧
    ¬(11 ≤ 10) := by
  decide

/-- Claim C7 (amended): a player's in-memory event log is append-only and
unbounded — every action leaves the prior log as a prefix — and only the
serialized view of `Player.to_dict` is bounded, to the last 5 (not 10)
events. -/
theorem event_log_append_only_view_five (gs : GameState) (nm action : String)
    (choice : Option ChoicePayload) (d : Draws) (p : Player)
    (h : getPlayer gs nm = some p) :
    ∃ q tl, getPlayer (handle_action gs nm action choice d) nm = some q ∧
      q.events = p.events ++ tl ∧
      q.eventsView.length ≤ 5 ∧
      ∃ front, q.events = front ++ q.eventsView := by
  obtain ⟨tl0, htl⟩ := actionBranch_events_append gs action choice d p
  refine ⟨_, tl0 ++ (generate_event d.gen).toList,
    getPlayer_handle gs nm action choice d p h, ?_, ?_, ?_⟩
  · rw [appendGen_events, htl, List.append_assoc]
  · unfold Player.eventsView
    rw [List.length_drop]
    omega
  · exact ⟨_, (List.take_append_drop _ _).symm⟩

/-- Witness for the amended C7 theorem at a one-player state. -/
theorem event_log_append_only_view_five_witness :
    ∃ q tl, getPlayer (handle_action (gsWith (Player.mk0 "A")) "A" "idle"
        none quietDraws) "A" = some q ∧
      q.events = (Player.mk0 "A").events ++ tl ∧
      q.eventsView.length ≤ 5 ∧
      ∃ front, q.events = front ++ q.eventsView :=
  event_log_append_only_view_five (gsWith (Player.mk0 "A")) "A" "idle" none
    quietDraws (Player.mk0 "A") (by decide)

/-- Claim C8: starting from non-negative food, ammo and money, each debit
operation (`consume_food`, `use_ammo`, `spend_money`) leaves all three of
food, ammo and money non-negative, for any debit amount. -/
theorem debits_never_negative (p : Player) (amount : Int)
    (hf : 0 ≤ p.food) (ha : 0 ≤ p.ammo) (hm : 0 ≤ p.money) :
    (0 ≤ (p.consume_food amount).food ∧ 0 ≤ (p.consume_food amount).ammo ∧
      0 ≤ (p.consume_food amount).money) ∧
    (0 ≤ (p.use_ammo amount).food ∧ 0 ≤ (p.use_ammo amount).ammo ∧
      0 ≤ (p.use_ammo amount).money) ∧
    (0 ≤ ((p.spend_money amount).1).food ∧ 0 ≤ ((p.spend_money amount).1).ammo ∧
      0 ≤ ((p.spend_money amount).1).money) := by
  refine ⟨⟨?_, ?_, ?_⟩, ⟨?_, ?_, ?_⟩, ⟨?_, ?_, ?_⟩⟩
  · rw [consume_food_food]; exact le_max_left 0 _
  · rw [consume_food_ammo]; exact ha
  · rw [consume_food_money]; exact hm
  · exact hf
  · show (0:Int) ≤ max 0 (p.ammo - amount); exact le_max_left 0 _
  · exact hm
  · rw [spend_money_food]; exact hf
  · rw [spend_money_ammo]; exact ha
  · rw [spend_money_money]; split <;> omega

/-- Witness for C8 at the default player and debit amount 7. -/
theorem debits_never_negative_witness :
    (0 ≤ (Player.mk0 "A").food ∧ 0 ≤ (Player.mk0 "A").ammo ∧
      0 ≤ (Player.mk0 "A").money) ∧
    (0 ≤ ((Player.mk0 "A").consume_food 7).food ∧
      0 ≤ ((Player.mk0 "A").consume_food 7).ammo ∧
      0 ≤ ((Player.mk0 "A").consume_food 7).money) ∧
    (0 ≤ ((Player.mk0 "A").use_ammo 7).food ∧
      0 ≤ ((Player.mk0 "A").use_ammo 7).ammo ∧
      0 ≤ ((Player.mk0 "A").use_ammo 7).money) ∧
    (0 ≤ (((Player.mk0 "A").spend_money 7).1).food ∧
      0 ≤ (((Player.mk0 "A").spend_money 7).1).ammo ∧
      0 ≤ (((Player.mk0 "A").spend_money 7).1).money) :=
  ⟨⟨by decide, by decide, by decide⟩,
    debits_never_negative (Player.mk0 "A") 7 (by decide) (by decide) (by decide)⟩

/-- Claim C9: the `hunt` action is gated on ammo ≥ 2 — above the gate
exactly 2 ammo is debited whichever way the success draw goes (success
also credits 20 food and logs a hunting entry, failure logs one too);
below the gate the player's food, ammo, money, health and wagon condition
are all unchanged and the log gains at most the independently generated
random event, which is never of hunting type. -/
theorem hunt_gated_on_ammo_threshold (gs : GameState) (nm : String)
    (c : Option ChoicePayload) (d : Draws) (p : Player)
    (h : getPlayer gs nm = some p) :
    ∃ q, getPlayer (handle_action gs nm "hunt" c d) nm = some q ∧
      (2 ≤ p.ammo →
        q.ammo = p.ammo - 2 ∧ q.money = p.money ∧ q.health = p.health ∧
        q.wagon_condition = p.wagon_condition ∧
        q.food = (if d.huntSuccess then p.food + 20 else p.food) ∧
        q.events = p.events ++
          [if d.huntSuccess then huntSuccessEvent d.ts else huntFailEvent d.ts] ++
          (generate_event d.gen).toList) ∧
      (p.ammo < 2 →
        q.food = p.food ∧ q.ammo = p.ammo ∧ q.money = p.money ∧
        q.health = p.health ∧ q.wagon_condition = p.wagon_condition ∧
        q.events = p.events ++ (generate_event d.gen).toList ∧
        ∀ ev, generate_event d.gen = some ev → ev.type ≠ EventType.HUNTING) := by
  refine ⟨_, getPlayer_handle gs nm "hunt" c d p h, ?_, ?_⟩
  · intro h2
    rw [actionBranch_hunt, if_pos h2]
    by_cases hs : d.huntSuccess <;>
      simp [hs, appendGen_ammo, appendGen_money, appendGen_health, appendGen_wagon,
        appendGen_food, appendGen_events, Player.use_ammo, Player.add_food] <;>
      omega
  · intro hlow
    rw [actionBranch_hunt, if_neg (by omega)]
    refine ⟨appendGen_food d.gen p, appendGen_ammo d.gen p, appendGen_money d.gen p,
      appendGen_health d.gen p, appendGen_wagon d.gen p, appendGen_events d.gen p, ?_⟩
    intro ev hev
    cases g : d.gen <;> rw [g] at hev <;> simp [generate_event] at hev <;>
      simp [← hev, illnessEvent, weatherEvent, tradingPostEvent]

/-- Witness for C9: a player with 1 ammo hunting keeps food 100 and
ammo 1. -/
theorem hunt_gated_on_ammo_threshold_witness :
    ∃ q, getPlayer (handle_action (gsWith { Player.mk0 "A" with ammo := 1 })
        "A" "hunt" none quietDraws) "A" = some q ∧
      q.food = 100 ∧ q.ammo = 1 := by
  obtain ⟨q, hq, _, hlow⟩ :=
    hunt_gated_on_ammo_threshold (gsWith { Player.mk0 "A" with ammo := 1 })
      "A" none quietDraws { Player.mk0 "A" with ammo := 1 } (by decide)
  obtain ⟨hf, ha, _⟩ := hlow (by decide)
  exact ⟨q, hq, hf.trans (by decide), ha.trans (by decide)⟩

/-- Claim C10: the server's `move` handling never reads the client's
choice payload — two moves with different payloads (e.g. direction 1
vs −1) produce identical states — and the position always advances by
exactly +1. -/
theorem move_ignores_direction_payload (gs : GameState) (nm : String)
    (c1 c2 : Option ChoicePayload) (d : Draws) (p : Player)
    (h : getPlayer gs nm = some p) :
    handle_action gs nm "move" c1 d = handle_action gs nm "move" c2 d ∧
    ∃ q, getPlayer (handle_action gs nm "move" c1 d) nm = some q ∧
      q.position = p.position + 1 := by
  constructor
  · rfl
  · exact ⟨_, getPlayer_handle gs nm "move" c1 d p h,
      by rw [appendGen_position, actionBranch_move_position]⟩

/-- Witness for C10: a move with direction −1 equals a move with
direction 1 and still advances the position to 1. -/
theorem move_ignores_direction_payload_witness :
    handle_action (gsWith (Player.mk0 "A")) "A" "move"
        (some (ChoicePayload.direction (-1))) quietDraws =
      handle_action (gsWith (Player.mk0 "A")) "A" "move"
        (some (ChoicePayload.direction 1)) quietDraws ∧
    ∃ q, getPlayer (handle_action (gsWith (Player.mk0 "A")) "A" "move"
        (some (ChoicePayload.direction (-1))) quietDraws) "A" = some q ∧
      q.position = (Player.mk0 "A").position + 1 :=
  move_ignores_direction_payload (gsWith (Player.mk0 "A")) "A"
    (some (ChoicePayload.direction (-1))) (some (ChoicePayload.direction 1))
    quietDraws (Player.mk0 "A") (by decide)

end OregonTrail
